import Mathlib

/-!
Shallow embedding of the annotation tool in src/app.py (the binary
artifact/no-artifact labelling UI), together with the derived views named by
the specification (reconciled state, resolved ids, unresolved queue).

Modelling conventions:
* a conversation record of ./data/conversations.json is a `Conv`;
* the decision-log file ./data/labels.jsonl is a `List LogLine`, one entry per
  physical line; an `Option (List LogLine)` is `none` when the file does not
  exist (the `os.path.exists` check in `load_labels`);
* Python dicts keyed by strings are association lists built with `insertA`,
  which replaces the first binding of an existing key in place and appends a
  fresh key at the end, exactly the mutation order of a CPython dict;
* exceptions are `Except Unit`: `json.loads` raising `JSONDecodeError` on a
  malformed line (or a `KeyError` on a JSON line without the expected keys)
  is `Except.error ()`, and a caught `FileNotFoundError` is handled where the
  source handles it.
-/

namespace Annot

/-- A candidate item as read from conversations.json and consumed by app.py
(fields `query_id`, `query`, `matching_document`). -/
structure Conv where
  query_id : String
  query : String
  matching_document : String
  deriving DecidableEq

/-- One physical line of the decision log ./data/labels.jsonl as the replay
loop of `load_labels` (src/app.py lines 31-35) classifies it: whitespace-only
(`line.strip()` is falsy, line skipped), a well-formed record line carrying
the four fields that `save_label` writes, or a malformed line (not valid
JSON, or JSON without the `query_id`/`label` keys); on a malformed line the
source raises out of the loop. -/
inductive LogLine where
  | blank
  | record (query_id query matching_document label : String)
  | malformed
  deriving DecidableEq

/-- Keys of an association list (the view of a Python dict). -/
def keys (m : List (String × String)) : List String := m.map Prod.fst

/-- Python dict assignment `m[k] = v`: replace the binding of `k` in place if
present, else append it. -/
def insertA : List (String × String) → String → String → List (String × String)
  | [], k, v => [(k, v)]
  | (k', v') :: rest, k, v =>
    if k' = k then (k, v) :: rest else (k', v') :: insertA rest k v

/-- Python dict lookup `m[k]` (as an `Option`): first binding of `k` wins. -/
def lookupA : List (String × String) → String → Option String
  | [], _ => none
  | (k', v') :: rest, k => if k' = k then some v' else lookupA rest k

/-- Number of bindings of key `k` in the mapping. -/
def countKey (m : List (String × String)) (k : String) : Nat := (keys m).count k

/-- All keys of the mapping are distinct (the invariant of a Python dict). -/
def NodupKeys (m : List (String × String)) : Prop := (keys m).Nodup

/-- One iteration of the replay loop of `load_labels` (src/app.py lines
32-35): on a pending exception nothing further runs; a blank line is skipped;
a well-formed line does `labels[item["query_id"]] = item["label"]`; a
malformed line raises. -/
def procLine (acc : Except Unit (List (String × String))) (l : LogLine) :
    Except Unit (List (String × String)) :=
  match acc, l with
  | .error e, _ => .error e
  | .ok m, .blank => .ok m
  | .ok _, .malformed => .error ()
  | .ok m, .record qid _ _ lbl => .ok (insertA m qid lbl)

/-- Embedding of src/app.py lines 27-36, `load_labels`: if the labels file does not exist
return the empty dict, otherwise fold the replay loop over its lines. -/
def load_labels (file : Option (List LogLine)) :
    Except Unit (List (String × String)) :=
  match file with
  | none => .ok []
  | some L => L.foldl procLine (.ok [])

/-- src/app.py lines 16-23, `load_conversations`: the dataset source is
either absent (`none`, the `FileNotFoundError` case: an error banner is shown
and `[]` is returned), readable and parseable (`some (.ok items)`), or
readable but unparseable (`some (.error e)`: `json.load` raises and the
exception propagates, since only `FileNotFoundError` is caught). -/
def load_conversations (src : Option (Except Unit (List Conv))) :
    Except Unit (List Conv) :=
  match src with
  | none => .ok []
  | some (.ok items) => .ok items
  | some (.error e) => .error e

/-- The st.session_state fields of src/app.py that the engine mutates. -/
structure SessionState where
  conversations : List Conv
  labels : List (String × String)
  current_index : Nat
  next_item : Bool
  deriving DecidableEq

/-- The JSON line that `save_label` (src/app.py lines 42-51) serialises and
appends for one decision. -/
def encodeRecord (c : Conv) (label_value : String) : LogLine :=
  .record c.query_id c.query c.matching_document label_value

/-- src/app.py lines 40-55, `save_label`: append the encoded record to the
log, then update `st.session_state.labels` and set the `next_item` flag.
`writeOk` models whether the file append succeeds; on failure (`false`) the
open/write raises before either session-state mutation runs, so the state is
returned untouched, the log holds whatever torn bytes reached the disk
(`torn`, zero or more junk lines), and the third component `false` records
that the exception propagated to the caller. -/
def save_label (writeOk : Bool) (torn : List LogLine) (conversation : Conv)
    (label_value : String) (st : SessionState) (log : List LogLine) :
    SessionState × List LogLine × Bool :=
  if writeOk then
    ({ st with
        labels := insertA st.labels conversation.query_id label_value,
        next_item := true },
      log ++ [encodeRecord conversation label_value], true)
  else
    (st, log ++ torn, false)

/-- src/app.py lines 75-77, `prev_item`: decrement the cursor unless it is
already 0. -/
def prev_item (st : SessionState) : SessionState :=
  if st.current_index > 0 then
    { st with current_index := st.current_index - 1 }
  else st

/-- src/app.py lines 80-82, `next_item`: increment the cursor while it is
below `len(conversations) - 1` (Python integer arithmetic, hence the cast to
`Int`: for an empty dataset the bound is `-1` and the guard is false). -/
def next_item (st : SessionState) : SessionState :=
  if (st.current_index : Int) < (st.conversations.length : Int) - 1 then
    { st with current_index := st.current_index + 1 }
  else st

/-- src/app.py lines 86-90, session initialisation on first run: cursor 0,
dataset from `load_conversations`, labels from `load_labels`, `next_item`
cleared; an exception from either loader propagates. -/
def sessionInit (src : Option (Except Unit (List Conv)))
    (file : Option (List LogLine)) : Except Unit SessionState :=
  match load_conversations src with
  | .error e => .error e
  | .ok convs =>
    match load_labels file with
    | .error e => .error e
    | .ok lbls => .ok ⟨convs, lbls, 0, false⟩

/-- src/app.py lines 105-111, the sidebar progress block: `labeled` is the
size of the labels dict. -/
def sidebarLabeled (st : SessionState) : Nat := st.labels.length

/-- src/app.py line 105: `total = len(st.session_state.conversations)`. -/
def sidebarTotal (st : SessionState) : Nat := st.conversations.length

/-- src/app.py line 107: `remaining = total - labeled` (Python integer
subtraction, so it can go negative). -/
def sidebarRemaining (st : SessionState) : Int :=
  (sidebarTotal st : Int) - (sidebarLabeled st : Int)

/-- The progress tuple (labeled, total, remaining) the sidebar reports. -/
def progressOf (st : SessionState) : Nat × Nat × Int :=
  (sidebarLabeled st, sidebarTotal st, sidebarRemaining st)

/-- Modelled from the spec (section 3, ReconciledState): ids of the dataset
items that carry a reconciled decision. The binary-variant code in src/app.py
keeps only the raw mapping and never materialises this set; the definition
follows the words of the spec over the mapping the code builds. -/
def resolvedIds (items : List Conv) (m : List (String × String)) :
    List String :=
  (items.filter (fun c => (lookupA m c.query_id).isSome)).map Conv.query_id

/-- Modelled from the spec (section 3, ReconciledState): dataset items with
no reconciled decision, in dataset order. As with `resolvedIds`, src/app.py
never materialises this queue; the definition follows the spec. -/
def unresolvedQueue (items : List Conv) (m : List (String × String)) :
    List Conv :=
  items.filter (fun c => (lookupA m c.query_id).isNone)

/-- The label a single log line contributes for item `id`, if any. -/
def recLabel (l : LogLine) (id : String) : Option String :=
  match l with
  | .record qid _ _ lbl => if qid = id then some lbl else none
  | _ => none

/-- Right-biased choice on optional labels: prefer the first argument. -/
def orO (a b : Option String) : Option String :=
  match a with
  | some v => some v
  | none => b

/-- The label of the record at the greatest append position among the records
of the log that carry item `id`, if any record does. -/
def lastLabel : List LogLine → String → Option String
  | [], _ => none
  | l :: L, id => orO (lastLabel L id) (recLabel l id)

/-- Repeated commits, each with a successful clean append: fold `save_label`
over a list of (conversation, label) decisions, threading session state and
log. -/
def runCommits : List (Conv × String) → SessionState → List LogLine →
    SessionState × List LogLine
  | [], st, log => (st, log)
  | (c, v) :: rest, st, log =>
    let r := save_label true [] c v st log
    runCommits rest r.1 r.2.1

/-- The rendering branch src/app.py lines 120-178 selects: an item page, the
all-processed banner, or the no-data error. -/
inductive View where
  | showItem (c : Conv)
  | allProcessed
  | noData
  deriving DecidableEq

/-- src/app.py lines 120-178: with a non-empty dataset and an in-range cursor
the current conversation is rendered; past the end the success banner shows;
with an empty dataset the no-data error shows. -/
def mainView (st : SessionState) : View :=
  if st.conversations = [] then .noData
  else if h : st.current_index < st.conversations.length then
    .showItem (st.conversations.get ⟨st.current_index, h⟩)
  else .allProcessed

/-! ### Helper lemmas about the mapping operations -/

theorem orO_none_right (a : Option String) : orO a none = a := by
  cases a <;> rfl

theorem orO_assoc (a b c : Option String) :
    orO (orO a b) c = orO a (orO b c) := by
  cases a <;> cases b <;> rfl

theorem lookupA_insertA (m : List (String × String)) (k v k' : String) :
    lookupA (insertA m k v) k' = if k' = k then some v else lookupA m k' := by
  induction m with
  | nil =>
    by_cases h : k' = k
    · subst h; simp [insertA, lookupA]
    · simp [insertA, lookupA, h, Ne.symm h]
  | cons p rest ih =>
    obtain ⟨k₀, v₀⟩ := p
    by_cases h0 : k₀ = k
    · subst h0
      by_cases h : k' = k₀
      · subst h; simp [insertA, lookupA]
      · simp [insertA, lookupA, h, Ne.symm h]
    · by_cases h1 : k₀ = k'
      · subst h1
        simp [insertA, lookupA, h0]
      · simp [insertA, lookupA, h0, h1, ih]

theorem mem_keys_insertA (m : List (String × String)) (k v a : String) :
    a ∈ keys (insertA m k v) ↔ a ∈ keys m ∨ a = k := by
  induction m with
  | nil => simp [insertA, keys]
  | cons p rest ih =>
    obtain ⟨k₀, v₀⟩ := p
    by_cases h0 : k₀ = k
    · subst h0; simp [insertA, keys]; tauto
    · simp only [insertA, h0, if_false, keys, List.map_cons, List.mem_cons] at *
      rw [show (insertA rest k v).map Prod.fst = keys (insertA rest k v) from rfl]
      rw [show rest.map Prod.fst = keys rest from rfl]
      tauto

theorem nodupKeys_insertA (m : List (String × String)) (k v : String)
    (h : NodupKeys m) : NodupKeys (insertA m k v) := by
  induction m with
  | nil => simp [insertA, NodupKeys, keys]
  | cons p rest ih =>
    obtain ⟨k₀, v₀⟩ := p
    simp only [NodupKeys, keys, List.map_cons, List.nodup_cons] at h
    by_cases h0 : k₀ = k
    · subst h0
      simpa [insertA, NodupKeys, keys] using h
    · have hr := ih h.2
      simp only [insertA, h0, if_false, NodupKeys, keys, List.map_cons,
        List.nodup_cons]
      refine ⟨?_, hr⟩
      intro hmem
      rcases (mem_keys_insertA rest k v k₀).1 hmem with hin | heq
      · exact h.1 hin
      · exact h0 heq

theorem countKey_insertA (m : List (String × String)) (k v : String)
    (h : NodupKeys m) : countKey (insertA m k v) k = 1 := by
  induction m with
  | nil => simp [insertA, countKey, keys]
  | cons p rest ih =>
    obtain ⟨k₀, v₀⟩ := p
    simp only [NodupKeys, keys, List.map_cons, List.nodup_cons] at h
    by_cases h0 : k₀ = k
    · subst h0
      have hz : List.count k₀ (rest.map Prod.fst) = 0 :=
        List.count_eq_zero.2 h.1
      simp [insertA, countKey, keys, List.count_cons, hz]
    · have hr := ih h.2
      simp only [countKey, keys] at hr
      simp only [insertA, h0, if_false, countKey, keys, List.map_cons,
        List.count_cons, hr]
      simp [h0]

/-! ### Helper lemmas about log replay -/

theorem foldl_procLine_error (L : List LogLine) :
    L.foldl procLine (.error ()) = .error () := by
  induction L with
  | nil => rfl
  | cons l L ih => simpa [procLine] using ih

theorem procLine_blank (acc : Except Unit (List (String × String))) :
    procLine acc .blank = acc := by
  cases acc <;> rfl

theorem replay_ok_lookup (L : List LogLine) :
    ∀ m₀ m, L.foldl procLine (.ok m₀) = .ok m →
      ∀ id, lookupA m id = orO (lastLabel L id) (lookupA m₀ id) := by
  induction L with
  | nil =>
    intro m₀ m h id
    simp only [List.foldl_nil, Except.ok.injEq] at h
    subst h
    rfl
  | cons l L ih =>
    intro m₀ m h id
    cases l with
    | blank =>
      have h' : L.foldl procLine (.ok m₀) = .ok m := by
        simpa [procLine] using h
      simpa [lastLabel, recLabel, orO_none_right] using ih m₀ m h' id
    | malformed =>
      exfalso
      simp [procLine, foldl_procLine_error] at h
    | record qid q d lbl =>
      have h' : L.foldl procLine (.ok (insertA m₀ qid lbl)) = .ok m := by
        simpa [procLine] using h
      have := ih (insertA m₀ qid lbl) m h' id
      rw [this, lookupA_insertA]
      simp only [lastLabel, recLabel, orO_assoc]
      by_cases hq : id = qid
      · subst hq; simp [orO]
      · simp [orO, hq, Ne.symm hq]

theorem replay_nodup (L : List LogLine) :
    ∀ m₀ m, NodupKeys m₀ → L.foldl procLine (.ok m₀) = .ok m → NodupKeys m := by
  induction L with
  | nil =>
    intro m₀ m hn h
    simp only [List.foldl_nil, Except.ok.injEq] at h
    exact h ▸ hn
  | cons l L ih =>
    intro m₀ m hn h
    cases l with
    | blank => exact ih m₀ m hn (by simpa [procLine] using h)
    | malformed =>
      exfalso
      simp [procLine, foldl_procLine_error] at h
    | record qid q d lbl =>
      exact ih (insertA m₀ qid lbl) m (nodupKeys_insertA m₀ qid lbl hn)
        (by simpa [procLine] using h)

theorem lastLabel_append (L₁ L₂ : List LogLine) (id : String) :
    lastLabel (L₁ ++ L₂) id = orO (lastLabel L₂ id) (lastLabel L₁ id) := by
  induction L₁ with
  | nil => simp [lastLabel, orO_none_right]
  | cons l L ih => simp [lastLabel, ih, orO_assoc]

theorem replay_error_iff (L : List LogLine) :
    ∀ m₀, (L.foldl procLine (.ok m₀) = .error ()) ↔ LogLine.malformed ∈ L := by
  induction L with
  | nil =>
    intro m₀
    simp
  | cons l L ih =>
    intro m₀
    cases l with
    | blank => simpa [procLine] using ih m₀
    | malformed => simp [procLine, foldl_procLine_error]
    | record qid q d lbl => simpa [procLine] using ih (insertA m₀ qid lbl)

theorem replay_snoc_record (log : List LogLine) (m : List (String × String))
    (c : Conv) (v : String) (h : load_labels (some log) = .ok m) :
    load_labels (some (log ++ [encodeRecord c v])) =
      .ok (insertA m c.query_id v) := by
  simp only [load_labels] at h ⊢
  rw [List.foldl_append, h]
  rfl

theorem conservation_filter (items : List Conv) (m : List (String × String)) :
    (resolvedIds items m).length + (unresolvedQueue items m).length =
      items.length := by
  induction items with
  | nil => rfl
  | cons c items ih =>
    simp only [resolvedIds, unresolvedQueue, List.length_map] at ih
    simp only [resolvedIds, unresolvedQueue, List.filter_cons, List.length_map]
    cases hl : lookupA m c.query_id with
    | none => simp [hl]; omega
    | some v => simp [hl]; omega

/-! ### Navigation characterisations -/

theorem next_item_current (st : SessionState) :
    (next_item st).current_index =
      if (st.current_index : Int) < (st.conversations.length : Int) - 1
      then st.current_index + 1 else st.current_index := by
  unfold next_item
  split_ifs <;> rfl

theorem prev_item_current (st : SessionState) :
    (prev_item st).current_index =
      if st.current_index > 0 then st.current_index - 1
      else st.current_index := by
  unfold prev_item
  split_ifs <;> rfl

theorem next_item_noop (st : SessionState)
    (h : ¬ ((st.current_index : Int) < (st.conversations.length : Int) - 1)) :
    next_item st = st := by
  unfold next_item
  rw [if_neg h]

theorem prev_item_noop (st : SessionState) (h : ¬ st.current_index > 0) :
    prev_item st = st := by
  unfold prev_item
  rw [if_neg h]

/-! ### Sample data for witnesses and counterexamples -/

def convA : Conv := ⟨"a", "qa", "da"⟩

def convB : Conv := ⟨"b", "qb", "db"⟩

def convC : Conv := ⟨"c", "qc", "dc"⟩

/-! ### The claims -/

/-- C1: Last-write-wins reconciliation: whenever replaying a decision log
succeeds, the reconciled mapping assigns each item id the label of the record
at the greatest append position among the records carrying that id (`none` on
both sides when no record carries it); in particular, when the log ends with
a record for an id that also occurs at an earlier position, the reconciled
label for that id is the final record's label, regardless of the earlier
record's content. -/
theorem last_write_wins (L : List LogLine) (m : List (String × String))
    (h : load_labels (some L) = .ok m) :
    (∀ id, lookupA m id = lastLabel L id) ∧
    (∀ (pre mid : List LogLine) (id q₁ d₁ o₁ q₂ d₂ o₂ : String),
      L = pre ++ [.record id q₁ d₁ o₁] ++ mid ++ [.record id q₂ d₂ o₂] →
      lookupA m id = some o₂) := by
  have key : ∀ id, lookupA m id = lastLabel L id := by
    intro id
    have hfold : L.foldl procLine (.ok []) = .ok m := by
      simpa [load_labels] using h
    simpa [lookupA, orO_none_right] using replay_ok_lookup L [] m hfold id
  refine ⟨key, ?_⟩
  intro pre mid id q₁ d₁ o₁ q₂ d₂ o₂ hL
  rw [key id, hL]
  simp [lastLabel_append, lastLabel, recLabel, orO, orO_none_right]

/-- Witness for C1 at the concrete two-record log for item a. -/
theorem last_write_wins_witness :
    lookupA [("a", "y")] "a" = some "y" :=
  (last_write_wins
      [.record "a" "q1" "d1" "x", .record "a" "q2" "d2" "y"]
      [("a", "y")] rfl).2
    [] [] "a" "q1" "d1" "x" "q2" "d2" "y" rfl

/-- C2: Commit atomicity: when the decision-log append inside `save_label`
fails, the exception propagates to the caller (third component `false`) and
the whole session state — in particular the label mapping, the cursor and the
pending-advance flag — is structurally equal to its value before the call,
whatever torn bytes the failed append left in the file. -/
theorem commit_atomicity (torn : List LogLine) (c : Conv) (v : String)
    (st : SessionState) (log : List LogLine) (writeOk : Bool)
    (h : writeOk = false) :
    (save_label writeOk torn c v st log).1 = st ∧
    (save_label writeOk torn c v st log).2.2 = false ∧
    (save_label writeOk torn c v st log).1.labels = st.labels ∧
    (save_label writeOk torn c v st log).1.current_index = st.current_index ∧
    (save_label writeOk torn c v st log).1.next_item = st.next_item := by
  subst h
  simp [save_label]

/-- Witness for C2 at a concrete failed append. -/
theorem commit_atomicity_witness :
    (save_label false [LogLine.malformed] convA "artifact"
        ⟨[convA], [], 0, false⟩ []).1 = ⟨[convA], [], 0, false⟩ :=
  (commit_atomicity [LogLine.malformed] convA "artifact"
    ⟨[convA], [], 0, false⟩ [] false rfl).1

/-- C5: Navigator saturation bounds: on a dataset of at least one item, with
the cursor inside [0, N-1], `next_item` increments the cursor by one
saturating at N-1 and `prev_item` decrements it by one saturating at 0;
neither leaves [0, N-1] (the lower bound holds because positions are
naturals), and at the respective boundary each is a no-op returning the state
unchanged rather than an error. -/
theorem navigator_bounds (st : SessionState)
    (h₁ : 1 ≤ st.conversations.length)
    (h₂ : st.current_index ≤ st.conversations.length - 1) :
    (next_item st).current_index =
      min (st.current_index + 1) (st.conversations.length - 1) ∧
    (prev_item st).current_index = st.current_index - 1 ∧
    (next_item st).current_index ≤ st.conversations.length - 1 ∧
    (prev_item st).current_index ≤ st.conversations.length - 1 ∧
    (st.current_index = st.conversations.length - 1 → next_item st = st) ∧
    (st.current_index = 0 → prev_item st = st) := by
  refine ⟨?_, ?_, ?_, ?_, ?_, ?_⟩
  · rw [next_item_current]
    split_ifs with h <;> omega
  · rw [prev_item_current]
    split_ifs with h <;> omega
  · rw [next_item_current]
    split_ifs with h <;> omega
  · rw [prev_item_current]
    split_ifs with h <;> omega
  · intro h
    apply next_item_noop
    omega
  · intro h
    apply prev_item_noop
    omega

/-- Witness for C5 on a concrete two-item dataset with the cursor at 1. -/
theorem navigator_bounds_witness :
    (next_item ⟨[convA, convB], [], 1, false⟩).current_index =
      min (1 + 1) (2 - 1) :=
  (navigator_bounds ⟨[convA, convB], [], 1, false⟩ (by decide) (by decide)).1

/-- C3 counterexample: a decision log whose trailing line is malformed (the
shape a crash mid-append leaves behind) makes `load_labels` raise instead of
skipping the line: the replay fails even though a well-formed record
precedes it. -/
theorem malformed_aborts_replay :
    load_labels (some [.record "a" "q" "d" "x", .malformed]) = .error () := rfl

/-- C3 amended: replay fails exactly when some non-blank line is malformed —
`json.loads` raises and the exception propagates, so a corrupt or partial
trailing line aborts the replay; only whitespace-only lines are skipped
(removing a blank line anywhere never changes the result). -/
theorem replay_malformed_amended (L : List LogLine) :
    (load_labels (some L) = .error () ↔ LogLine.malformed ∈ L) ∧
    (∀ L₁ L₂ : List LogLine,
      load_labels (some (L₁ ++ LogLine.blank :: L₂)) =
        load_labels (some (L₁ ++ L₂))) := by
  constructor
  · simpa [load_labels] using replay_error_iff L []
  · intro L₁ L₂
    simp only [load_labels]
    rw [List.foldl_append, List.foldl_cons, procLine_blank,
      ← List.foldl_append]

/-- Witness for the amended C3 at a one-line malformed log. -/
theorem replay_malformed_amended_witness :
    load_labels (some [LogLine.malformed]) = .error () ↔
      LogLine.malformed ∈ [LogLine.malformed] :=
  (replay_malformed_amended [LogLine.malformed]).1

/-- C4 counterexample: when the dataset file is missing (the source cannot be
read), `load_conversations` does not fail: it catches the exception and
returns the substitute empty dataset, with which the session then runs. -/
theorem missing_dataset_returns_empty :
    load_conversations none = .ok ([] : List Conv) := rfl

/-- C4 amended: a parse failure of an existing dataset file propagates and is
fatal to the session, but a missing file is caught: an error banner is shown
and the empty dataset is returned, after which the main area renders the
no-data error view; a successful non-empty load is always exactly the parsed
source, never a partial substitute. -/
theorem dataset_unavailable_amended :
    (∀ e : Unit, load_conversations (some (.error e)) = .error e) ∧
    load_conversations none = Except.ok ([] : List Conv) ∧
    (∀ st : SessionState, st.conversations = [] → mainView st = .noData) ∧
    (∀ (src : Option (Except Unit (List Conv))) (items : List Conv),
      load_conversations src = .ok items → items ≠ [] →
        src = some (.ok items)) := by
  refine ⟨fun e => rfl, rfl, ?_, ?_⟩
  · intro st h
    unfold mainView
    rw [if_pos h]
  · intro src items h hne
    match src with
    | none =>
      exfalso
      apply hne
      have : ([] : List Conv) = items := by
        simpa [load_conversations] using h
      exact this.symm
    | some (.ok its) =>
      have : its = items := by
        simpa [load_conversations] using h
      rw [this]
    | some (.error e) =>
      exact absurd h (by simp [load_conversations])

/-- Witness for the amended C4: an empty dataset renders the no-data view. -/
theorem dataset_unavailable_amended_witness :
    mainView ⟨[], [], 0, false⟩ = View.noData :=
  dataset_unavailable_amended.2.2.1 ⟨[], [], 0, false⟩ rfl

/-- C6 counterexample: a decision record whose item id ("zzz") is not in the
dataset stays inert in the derived resolved/unresolved views, but the
sidebar counters of src/app.py are computed from the size of the whole
mapping, so the foreign record does perturb them: with dataset [a] and only
the foreign record, the sidebar reports progress (1, 1, 0) instead of the
(0, 1, 1) it reports without that record, while no dataset item is
resolved. -/
theorem foreign_record_perturbs_counts :
    load_labels (some [.record "zzz" "q" "d" "x"]) = .ok [("zzz", "x")] ∧
    resolvedIds [convA] [("zzz", "x")] = resolvedIds [convA] [] ∧
    unresolvedQueue [convA] [("zzz", "x")] = unresolvedQueue [convA] [] ∧
    progressOf ⟨[convA], [("zzz", "x")], 0, false⟩ ≠
      progressOf ⟨[convA], [], 0, false⟩ ∧
    sidebarLabeled ⟨[convA], [("zzz", "x")], 0, false⟩ = 1 ∧
    (resolvedIds [convA] [("zzz", "x")]).length = 0 :=
  ⟨rfl, rfl, rfl, by decide, rfl, rfl⟩

/-- C6 amended: the partition of the dataset satisfies conservation —
resolved and unresolved item counts always sum to the dataset size — and a
record with a foreign item id never surfaces in `resolvedIds` or
`unresolvedQueue`; but the sidebar's labeled count is the size of the whole
mapping (and remaining is total minus that), so foreign records do perturb
the labeled/remaining counts the code displays. -/
theorem conservation_amended (items : List Conv)
    (m : List (String × String)) :
    ((resolvedIds items m).length + (unresolvedQueue items m).length =
      items.length) ∧
    (∀ id, id ∉ items.map Conv.query_id →
      id ∉ resolvedIds items m ∧
      ∀ c ∈ unresolvedQueue items m, c.query_id ≠ id) ∧
    (∀ st : SessionState, st.conversations = items → st.labels = m →
      sidebarLabeled st = m.length ∧
      sidebarRemaining st = (items.length : Int) - (m.length : Int)) := by
  refine ⟨conservation_filter items m, ?_, ?_⟩
  · intro id hid
    constructor
    · intro hmem
      apply hid
      simp only [resolvedIds, List.mem_map] at hmem
      obtain ⟨c, hc, hq⟩ := hmem
      rw [← hq]
      exact List.mem_map_of_mem _ (List.mem_of_mem_filter hc)
    · intro c hc heq
      apply hid
      rw [← heq]
      simp only [unresolvedQueue] at hc
      exact List.mem_map_of_mem _ (List.mem_of_mem_filter hc)
  · intro st h₁ h₂
    subst h₁
    subst h₂
    exact ⟨rfl, rfl⟩

/-- Witness for the amended C6 on a concrete dataset and mapping. -/
theorem conservation_amended_witness :
    (resolvedIds [convA] [("zzz", "x")]).length +
      (unresolvedQueue [convA] [("zzz", "x")]).length = 1 :=
  (conservation_amended [convA] [("zzz", "x")]).1

/-- C7: Commit retry idempotence: committing the same item with the same
label twice (both appends succeeding) appends two decision records to the
log, yet the mapping replayed from the resulting log has exactly one binding
for that item id, and its value is that label — retrying after an uncertain
write outcome is safe. -/
theorem commit_retry_idempotent (c : Conv) (v : String) (st : SessionState)
    (log : List LogLine) (m : List (String × String))
    (h : load_labels (some log) = .ok m) :
    (save_label true [] c v
        (save_label true [] c v st log).1
        (save_label true [] c v st log).2.1).2.1 =
      log ++ [encodeRecord c v, encodeRecord c v] ∧
    ∃ m₂,
      load_labels (some (save_label true [] c v
          (save_label true [] c v st log).1
          (save_label true [] c v st log).2.1).2.1) = .ok m₂ ∧
      countKey m₂ c.query_id = 1 ∧
      lookupA m₂ c.query_id = some v := by
  have hfold : log.foldl procLine (.ok []) = .ok m := by
    simpa [load_labels] using h
  have hnd : NodupKeys m := replay_nodup log [] m (by simp [NodupKeys, keys])
    hfold
  have h₁ : load_labels (some (log ++ [encodeRecord c v])) =
      .ok (insertA m c.query_id v) := replay_snoc_record log m c v h
  have h₂ : load_labels
      (some ((log ++ [encodeRecord c v]) ++ [encodeRecord c v])) =
      .ok (insertA (insertA m c.query_id v) c.query_id v) :=
    replay_snoc_record _ _ c v h₁
  constructor
  · simp [save_label]
  · refine ⟨insertA (insertA m c.query_id v) c.query_id v, ?_, ?_, ?_⟩
    · simpa [save_label] using h₂
    · exact countKey_insertA _ _ _ (nodupKeys_insertA m c.query_id v hnd)
    · simp [lookupA_insertA]

/-- Witness for C7: the double commit on item a from the empty log. -/
theorem commit_retry_idempotent_witness :
    (save_label true [] convA "artifact"
        (save_label true [] convA "artifact"
          ⟨[convA], [], 0, false⟩ []).1
        (save_label true [] convA "artifact"
          ⟨[convA], [], 0, false⟩ []).2.1).2.1 =
      [] ++ [encodeRecord convA "artifact", encodeRecord convA "artifact"] :=
  (commit_retry_idempotent convA "artifact" ⟨[convA], [], 0, false⟩ [] []
    rfl).1

/-- C8: Incremental update equals full replay: starting from any session
whose label mapping is exactly the replay of its prior log, folding any
sequence of successfully committed decisions one at a time leaves the
in-memory mapping equal to a from-scratch replay of the final log; and on
dataset [a, b, c] with an empty prior log, after committing (a, artifact)
the replayed mapping is [(a, artifact)], the resolved ids are [a], the
unresolved queue is [b, c] and the progress tuple is (1, 3, 2). -/
theorem incremental_matches_replay (cs : List (Conv × String))
    (st : SessionState) (log : List LogLine)
    (h : load_labels (some log) = .ok st.labels) :
    (load_labels (some (runCommits cs st log).2) =
      .ok (runCommits cs st log).1.labels) ∧
    (load_labels
        (some (save_label true [] convA "artifact"
          ⟨[convA, convB, convC], [], 0, false⟩ []).2.1) =
      .ok [("a", "artifact")] ∧
    resolvedIds [convA, convB, convC] [("a", "artifact")] = ["a"] ∧
    unresolvedQueue [convA, convB, convC] [("a", "artifact")] =
      [convB, convC] ∧
    progressOf (save_label true [] convA "artifact"
        ⟨[convA, convB, convC], [], 0, false⟩ []).1 = (1, 3, 2)) := by
  constructor
  · induction cs generalizing st log with
    | nil => exact h
    | cons p cs ih =>
      obtain ⟨c, v⟩ := p
      have hstep : load_labels (some ((save_label true [] c v st log).2.1)) =
          .ok ((save_label true [] c v st log).1.labels) := by
        simpa [save_label] using replay_snoc_record log st.labels c v h
      simpa [runCommits] using ih _ _ hstep
  · exact ⟨rfl, rfl, rfl, rfl⟩

/-- Witness for C8: one commit on the three-item dataset from an empty
log. -/
theorem incremental_matches_replay_witness :
    load_labels
        (some (runCommits [(convA, "artifact")]
          ⟨[convA, convB, convC], [], 0, false⟩ []).2) =
      .ok (runCommits [(convA, "artifact")]
          ⟨[convA, convB, convC], [], 0, false⟩ []).1.labels :=
  (incremental_matches_replay [(convA, "artifact")]
    ⟨[convA, convB, convC], [], 0, false⟩ [] rfl).1

/-- C9 counterexample: a commit with an empty label value is not rejected:
`save_label` appends a record for it and updates the mapping — there is no
`EmptySelection` validation anywhere in src/app.py. -/
theorem empty_label_not_rejected :
    (save_label true [] convA "" ⟨[convA], [], 0, false⟩ []).2.2 = true ∧
    (save_label true [] convA "" ⟨[convA], [], 0, false⟩ []).2.1 =
      [encodeRecord convA ""] ∧
    (save_label true [] convA "" ⟨[convA], [], 0, false⟩ []).1.labels =
      [("a", "")] :=
  ⟨rfl, rfl, rfl⟩

/-- C9 amended: `save_label` performs no validation of the label value: a
commit whose label is empty succeeds like any other — the record is appended
to the log, the mapping binds the item id to the empty label, and the
advance flag is set. (The binary UI only ever passes the values artifact and
not-artifact, so the empty case is reachable only by a caller outside the
two buttons.) -/
theorem empty_selection_amended (c : Conv) (st : SessionState)
    (log : List LogLine) :
    (save_label true [] c "" st log).2.2 = true ∧
    (save_label true [] c "" st log).2.1 = log ++ [encodeRecord c ""] ∧
    lookupA (save_label true [] c "" st log).1.labels c.query_id =
      some "" ∧
    (save_label true [] c "" st log).1.next_item = true := by
  refine ⟨rfl, rfl, ?_, rfl⟩
  show lookupA (insertA st.labels c.query_id "") c.query_id = some ""
  simp [lookupA_insertA]

/-- C10: a missing decision-log file is not an error: `load_labels` returns
the empty mapping, session initialisation succeeds with an empty label dict
and cursor 0, every dataset item is unresolved, no id is resolved, and the
progress tuple is (0, total, total). -/
theorem fresh_session_empty (src : Option (Except Unit (List Conv)))
    (items : List Conv) (h : load_conversations src = .ok items) :
    load_labels none = .ok [] ∧
    sessionInit src none = .ok ⟨items, [], 0, false⟩ ∧
    resolvedIds items [] = [] ∧
    unresolvedQueue items [] = items ∧
    progressOf ⟨items, [], 0, false⟩ =
      (0, items.length, (items.length : Int)) := by
  refine ⟨rfl, ?_, ?_, ?_, ?_⟩
  · unfold sessionInit
    rw [h]
    rfl
  · simp [resolvedIds, lookupA]
  · simp [unresolvedQueue, lookupA]
  · simp [progressOf, sidebarLabeled, sidebarTotal, sidebarRemaining]

/-- Witness for C10 on a concrete two-item dataset. -/
theorem fresh_session_empty_witness :
    unresolvedQueue [convA, convB] [] = [convA, convB] :=
  (fresh_session_empty (some (.ok [convA, convB])) [convA, convB]
    rfl).2.2.2.1

end Annot
